import Mathlib

/-!
Shallow embedding of the certificate-lifecycle service of this repository:
the service layer `internal/op/certificate.go` and the HTTP handler layer
(tenant request-creation handler).  The database/ORM layer is an external
collaborator (spec §1); it is embedded as an in-memory store (lists of
records keyed by numeric id) with explicit fault-injection parameters for
lookup and write failures, so that the error paths of the Go code are
reachable.  Time is embedded as `Nat` (an instant); within one service
call every `time.Now()` reads the same instant `now`.
-/

namespace OL

/-- Modelled from the spec: the certificate status enumeration of the
`model` package (not under src/): valid | expiring | revoked | pending |
rejected, shared between Certificate and CertificateRequest (spec §3). -/
inductive CertStatus where
  | valid
  | expiring
  | revoked
  | pending
  | rejected
deriving DecidableEq, Repr

/-- String rendering of a status, as used by `fmt.Errorf("... current
status: %s", req.Status)` (the scenario in spec §8 shows "rejected"). -/
def CertStatus.str : CertStatus → String
  | .valid => "valid"
  | .expiring => "expiring"
  | .revoked => "revoked"
  | .pending => "pending"
  | .rejected => "rejected"

/-- Modelled from the spec: the `model.Certificate` record (spec §3):
identifier, name, type, status, owner name, owner identifier, content
blob, issued date, expiration date. -/
structure Certificate where
  id : Nat
  name : String
  type : String
  status : CertStatus
  owner : String
  ownerID : Nat
  content : String
  issuedDate : Nat
  expirationDate : Nat
deriving DecidableEq, Repr

/-- Modelled from the spec: the `model.CertificateRequest` record (spec
§3): identifier, requesting user name/identifier, requested type, status,
reason text, approver/rejecter identity, approval/rejection timestamps,
rejection reason. -/
structure CertificateRequest where
  id : Nat
  userName : String
  userID : Nat
  type : String
  status : CertStatus
  reason : String
  approvedBy : String
  approvedAt : Option Nat
  rejectedBy : String
  rejectedAt : Option Nat
  rejectedReason : String
deriving DecidableEq, Repr

/-- Modelled from the spec: the "is pending" predicate on a request
(spec §3: terminated-request mutation is "checked via a single
'is pending' predicate"). -/
def CertificateRequest.IsPending (r : CertificateRequest) : Bool :=
  r.status == CertStatus.pending

/-- Modelled from the spec: the authenticated user (`model.User`):
numeric ID and Username, as read by the service layer. -/
structure User where
  id : Nat
  username : String
deriving DecidableEq, Repr

/-- The relational store (external collaborator, spec §2): two record
kinds keyed by numeric identifier, queried by owner/user identifier. -/
structure DB where
  certs : List Certificate
  reqs : List CertificateRequest
deriving DecidableEq, Repr

/-- `db.GetCertificateByID`: single-record lookup by primary key. -/
def DB.getCertificateByID (db : DB) (id : Nat) : Option Certificate :=
  db.certs.find? (fun c => c.id == id)

/-- `db.GetCertificateByOwnerID`: single-record lookup by the owner
identifier (returns the first stored match, as an ORM `First` does). -/
def DB.getCertificateByOwnerID (db : DB) (ownerID : Nat) : Option Certificate :=
  db.certs.find? (fun c => c.ownerID == ownerID)

/-- `db.GetCertificateRequestByID`: single-record lookup by primary key. -/
def DB.getCertificateRequestByID (db : DB) (id : Nat) : Option CertificateRequest :=
  db.reqs.find? (fun r => r.id == id)

/-- `db.GetPendingCertificateRequestByUserID`: first stored request of
the user whose status is pending. -/
def DB.getPendingCertificateRequestByUserID (db : DB) (userID : Nat) :
    Option CertificateRequest :=
  db.reqs.find? (fun r => r.userID == userID && r.status == CertStatus.pending)

/-- Fresh primary key assigned by the store on certificate insert. -/
def freshCertId (db : DB) : Nat :=
  (db.certs.map (fun c => c.id)).foldr max 0 + 1

/-- Fresh primary key assigned by the store on request insert. -/
def freshReqId (db : DB) : Nat :=
  (db.reqs.map (fun r => r.id)).foldr max 0 + 1

/-- `db.CreateCertificate`: insert, with the store assigning the key. -/
def DB.createCertificate (db : DB) (c : Certificate) : Certificate × DB :=
  let c₁ := { c with id := freshCertId db }
  (c₁, { db with certs := db.certs ++ [c₁] })

/-- `db.UpdateCertificate`: save by primary key. -/
def DB.updateCertificate (db : DB) (c : Certificate) : DB :=
  { db with certs := db.certs.map (fun x => if x.id == c.id then c else x) }

/-- `db.CreateCertificateRequest`: insert, with the store assigning the key. -/
def DB.createCertificateRequest (db : DB) (r : CertificateRequest) :
    CertificateRequest × DB :=
  let r₁ := { r with id := freshReqId db }
  (r₁, { db with reqs := db.reqs ++ [r₁] })

/-- `db.UpdateCertificateRequest`: save by primary key. -/
def DB.updateCertificateRequest (db : DB) (r : CertificateRequest) : DB :=
  { db with reqs := db.reqs.map (fun x => if x.id == r.id then r else x) }

/-- Outcome of a fallible single-record lookup at the storage layer:
a record, gorm's record-not-found, or another database error. -/
inductive DbResult (α : Type) where
  | found (a : α)
  | notFound
  | dbErr (msg : String)
deriving DecidableEq, Repr

/-- A certificate-by-owner lookup call: `fault` injects a non-not-found
storage error; otherwise the in-memory store answers. -/
def lookupCertByOwner (db : DB) (fault : Option String) (ownerID : Nat) :
    DbResult Certificate :=
  match fault with
  | some e => .dbErr e
  | none =>
    match db.getCertificateByOwnerID ownerID with
    | some c => .found c
    | none => .notFound

/-- A certificate-by-id lookup call with fault injection. -/
def lookupCertByID (db : DB) (fault : Option String) (id : Nat) :
    DbResult Certificate :=
  match fault with
  | some e => .dbErr e
  | none =>
    match db.getCertificateByID id with
    | some c => .found c
    | none => .notFound

/-- A request-by-id lookup call with fault injection. -/
def lookupReqByID (db : DB) (fault : Option String) (id : Nat) :
    DbResult CertificateRequest :=
  match fault with
  | some e => .dbErr e
  | none =>
    match db.getCertificateRequestByID id with
    | some r => .found r
    | none => .notFound

/-- A pending-request-by-user lookup call with fault injection. -/
def lookupPendingReqByUser (db : DB) (fault : Option String) (userID : Nat) :
    DbResult CertificateRequest :=
  match fault with
  | some e => .dbErr e
  | none =>
    match db.getPendingCertificateRequestByUserID userID with
    | some r => .found r
    | none => .notFound

/-- Embedding of `op.GetCertificateForTenant` (certificate.go:21-32):
a non-not-found lookup error is propagated; record-not-found is the
normal "tenant has no certificate" case and yields `ok none`; a found
certificate is returned unchanged. -/
def GetCertificateForTenant (db : DB) (fault : Option String) (ownerID : Nat) :
    Except String (Option Certificate) :=
  match lookupCertByOwner db fault ownerID with
  | .dbErr e => .error e
  | .notFound => .ok none
  | .found c => .ok (some c)

/-- Embedding of `op.RevokeCertificate` (certificate.go:45-52): load by
id, set status to revoked, save.  `getFault`/`updateFault` inject
storage failures of the two calls. -/
def RevokeCertificate (db : DB) (getFault updateFault : Option String)
    (id : Nat) : Except String Unit × DB :=
  match lookupCertByID db getFault id with
  | .dbErr e => (.error e, db)
  | .notFound => (.error "record not found", db)
  | .found cert =>
    let cert₁ := { cert with status := CertStatus.revoked }
    match updateFault with
    | some e => (.error e, db)
    | none => (.ok (), db.updateCertificate cert₁)

/-- Embedding of `op.CreateTenantCertificateRequest` (certificate.go:
66-98).  Step 1: owner-certificate check (valid/expiring blocks);
step 2: pending-request check; step 3: insert a new pending request.
The three `Option String` faults inject storage errors of the two
lookups and the insert. -/
def CreateTenantCertificateRequest (db : DB)
    (certLookupFault reqLookupFault createFault : Option String)
    (user : User) (reqType : String) (reason : String) :
    Except String CertificateRequest × DB :=
  match lookupCertByOwner db certLookupFault user.id with
  | .dbErr e => (.error ("failed to check existing certificate: " ++ e), db)
  | r₁ =>
    let existingCert : Option Certificate :=
      match r₁ with
      | .found c => some c
      | _ => none
    if (existingCert.map (fun c =>
          c.status == CertStatus.valid || c.status == CertStatus.expiring)).getD false then
      (.error "certificate already exists for user", db)
    else
      match lookupPendingReqByUser db reqLookupFault user.id with
      | .dbErr e => (.error ("failed to check pending request: " ++ e), db)
      | .found _ => (.error "certificate request is pending for user", db)
      | .notFound =>
        match createFault with
        | some e => (.error e, db)
        | none =>
          let request : CertificateRequest :=
            { id := 0
              userName := user.username
              userID := user.id
              type := reqType
              status := CertStatus.pending
              reason := reason
              approvedBy := ""
              approvedAt := none
              rejectedBy := ""
              rejectedAt := none
              rejectedReason := "" }
          let out := db.createCertificateRequest request
          (.ok out.1, out.2)

/-- Model of Go `time.AddDate(years, months, days)` over instants-as-Nat
seconds; only `AddDate(1, 0, 0)` ("one year later") is used. -/
def timeAddDate (t years months days : Nat) : Nat :=
  t + years * 31536000 + months * 2592000 + days * 86400

/-- Embedding of `op.ApproveAndCreateCertificate` (certificate.go:
101-141).  Load the request; error unless pending; build the new
certificate (name "<user>-<type>-cert", valid, empty content, issued
`now`, expiring one year later); mark the request valid with approver
and timestamp; then two separate writes: certificate insert, request
update.  If the update fails after the insert succeeded, the returned
state keeps the inserted certificate and the stored request untouched. -/
def ApproveAndCreateCertificate (db : DB)
    (getFault createCertFault updateReqFault : Option String)
    (now reqID : Nat) (adminUser : User) : Except String Certificate × DB :=
  match lookupReqByID db getFault reqID with
  | .dbErr e =>
    (.error ("failed to get request by id: " ++ toString reqID ++ ": " ++ e), db)
  | .notFound =>
    (.error ("failed to get request by id: " ++ toString reqID ++ ": record not found"), db)
  | .found req =>
    if !req.IsPending then
      (.error ("request is not pending, current status: " ++ req.status.str), db)
    else
      let cert : Certificate :=
        { id := 0
          name := req.userName ++ "-" ++ req.type ++ "-cert"
          type := req.type
          status := CertStatus.valid
          owner := req.userName
          ownerID := req.userID
          content := ""
          issuedDate := now
          expirationDate := timeAddDate now 1 0 0 }
      let req₁ :=
        { req with
            status := CertStatus.valid
            approvedBy := adminUser.username
            approvedAt := some now }
      match createCertFault with
      | some e => (.error ("failed to create certificate: " ++ e), db)
      | none =>
        let out := db.createCertificate cert
        match updateReqFault with
        | some e => (.error ("failed to update request: " ++ e), out.2)
        | none => (.ok out.1, out.2.updateCertificateRequest req₁)

/-- Embedding of `op.RejectCertificateRequest` (certificate.go:144-165).
Load the request; error unless pending; set status rejected with
rejecter, timestamp and reason; one save. -/
def RejectCertificateRequest (db : DB) (getFault updateFault : Option String)
    (now reqID : Nat) (adminUser : User) (reason : String) :
    Except String Unit × DB :=
  match lookupReqByID db getFault reqID with
  | .dbErr e =>
    (.error ("failed to get request by id: " ++ toString reqID ++ ": " ++ e), db)
  | .notFound =>
    (.error ("failed to get request by id: " ++ toString reqID ++ ": record not found"), db)
  | .found req =>
    if !req.IsPending then
      (.error ("request is not pending, current status: " ++ req.status.str), db)
    else
      let req₁ :=
        { req with
            status := CertStatus.rejected
            rejectedBy := adminUser.username
            rejectedAt := some now
            rejectedReason := reason }
      match updateFault with
      | some e => (.error e, db)
      | none => (.ok (), db.updateCertificateRequest req₁)

/-- An HTTP handler outcome: a success envelope or an error response
with a message and a status code. -/
inductive HandlerResp where
  | success (r : CertificateRequest)
  | errorResp (msg : String) (code : Nat)
deriving DecidableEq, Repr

/-- Embedding of the tenant request-creation handler
`handles.CreateTenantCertificateRequest` (part_000:248-272), after a
successful bind: call the service; the two business errors are
special-cased to 400 by exact string comparison, every other service
error maps to 500. -/
def CreateTenantCertificateRequestHandler (db : DB)
    (certLookupFault reqLookupFault createFault : Option String)
    (user : User) (reqType reason : String) : HandlerResp × DB :=
  let out := CreateTenantCertificateRequest db certLookupFault reqLookupFault
    createFault user reqType reason
  match out.1 with
  | .error e =>
    if e == "certificate already exists for user"
        || e == "certificate request is pending for user" then
      (.errorResp e 400, out.2)
    else
      (.errorResp e 500, out.2)
  | .ok rq => (.success rq, out.2)

/-- One exposed service operation touching certificate requests, with
its fault-injection schedule (spec §4.5 state machine: approve, reject,
tenant request creation). -/
inductive Op where
  | approve (getFault createCertFault updateReqFault : Option String)
      (now reqID : Nat) (adminUser : User)
  | reject (getFault updateFault : Option String) (now reqID : Nat)
      (adminUser : User) (reason : String)
  | tenantCreate (certLookupFault reqLookupFault createFault : Option String)
      (user : User) (reqType reason : String)

/-- The store after one exposed operation. -/
def step (db : DB) (op : Op) : DB :=
  match op with
  | .approve g c u now reqID admin =>
    (ApproveAndCreateCertificate db g c u now reqID admin).2
  | .reject g u now reqID admin reason =>
    (RejectCertificateRequest db g u now reqID admin reason).2
  | .tenantCreate cf rf crf user t r =>
    (CreateTenantCertificateRequest db cf rf crf user t r).2

/-- The store after a sequence of exposed operations. -/
def runOps (db : DB) (ops : List Op) : DB :=
  ops.foldl step db

/-- Primary keys of the stored requests are pairwise distinct (the
store's primary-key constraint). -/
def ReqIdsNodup (db : DB) : Prop :=
  (db.reqs.map (fun r => r.id)).Nodup

/-- Concrete pending request (spec §8 scenario: id=7, type="client",
user="alice"). -/
def exReqAlice : CertificateRequest :=
  { id := 7
    userName := "alice"
    userID := 3
    type := "client"
    status := CertStatus.pending
    reason := "need a client certificate"
    approvedBy := ""
    approvedAt := none
    rejectedBy := ""
    rejectedAt := none
    rejectedReason := "" }

/-- Concrete rejected request (spec §8 scenario: id=8, status=rejected). -/
def exReqRejected : CertificateRequest :=
  { id := 8
    userName := "carol"
    userID := 4
    type := "server"
    status := CertStatus.rejected
    reason := "old ask"
    approvedBy := ""
    approvedAt := none
    rejectedBy := "admin"
    rejectedAt := some 50
    rejectedReason := "no"
    }

/-- Concrete approving administrator. -/
def exAdmin : User := { id := 1, username := "admin" }

/-- Concrete store holding the two scenario requests. -/
def exDB1 : DB := { certs := [], reqs := [exReqAlice, exReqRejected] }

/-- C1: approving a stored pending request succeeds, appends exactly one
new certificate named "<userName>-<type>-cert" with type/owner/owner-id
copied from the request, status valid, empty content, expiration one
year after its issued date, and rewrites the stored request to status
valid with the approver's username and an approval timestamp. -/
theorem approve_pending_success (db : DB) (now reqID : Nat) (admin : User)
    (req : CertificateRequest)
    (hfind : db.getCertificateRequestByID reqID = some req)
    (hpend : req.status = CertStatus.pending) :
    ∃ cert : Certificate,
      (ApproveAndCreateCertificate db none none none now reqID admin).1 = .ok cert ∧
      (ApproveAndCreateCertificate db none none none now reqID admin).2.certs =
        db.certs ++ [cert] ∧
      cert.name = req.userName ++ "-" ++ req.type ++ "-cert" ∧
      cert.type = req.type ∧
      cert.owner = req.userName ∧
      cert.ownerID = req.userID ∧
      cert.status = CertStatus.valid ∧
      cert.content = "" ∧
      cert.issuedDate = now ∧
      cert.expirationDate = timeAddDate cert.issuedDate 1 0 0 ∧
      (ApproveAndCreateCertificate db none none none now reqID admin).2.reqs =
        db.reqs.map (fun x =>
          if x.id == req.id then
            { req with
                status := CertStatus.valid
                approvedBy := admin.username
                approvedAt := some now }
          else x) := by
  have h1 : lookupReqByID db none reqID = .found req := by
    simp [lookupReqByID, hfind]
  have h2 : req.IsPending = true := by
    simp [CertificateRequest.IsPending, hpend]
  refine ⟨{ id := freshCertId db
            name := req.userName ++ "-" ++ req.type ++ "-cert"
            type := req.type
            status := CertStatus.valid
            owner := req.userName
            ownerID := req.userID
            content := ""
            issuedDate := now
            expirationDate := timeAddDate now 1 0 0 },
    ?_, ?_, rfl, rfl, rfl, rfl, rfl, rfl, rfl, rfl, ?_⟩ <;>
    simp [ApproveAndCreateCertificate, h1, h2, DB.createCertificate,
      DB.updateCertificateRequest]

/-- C1 witness: the spec §8 scenario, request id 7 of alice, approved at
instant 100 by the admin. -/
theorem approve_pending_success_witness :
    exDB1.getCertificateRequestByID 7 = some exReqAlice ∧
    exReqAlice.status = CertStatus.pending ∧
    (∃ cert : Certificate,
      (ApproveAndCreateCertificate exDB1 none none none 100 7 exAdmin).1 = .ok cert ∧
      (ApproveAndCreateCertificate exDB1 none none none 100 7 exAdmin).2.certs =
        exDB1.certs ++ [cert] ∧
      cert.name = exReqAlice.userName ++ "-" ++ exReqAlice.type ++ "-cert" ∧
      cert.type = exReqAlice.type ∧
      cert.owner = exReqAlice.userName ∧
      cert.ownerID = exReqAlice.userID ∧
      cert.status = CertStatus.valid ∧
      cert.content = "" ∧
      cert.issuedDate = 100 ∧
      cert.expirationDate = timeAddDate cert.issuedDate 1 0 0 ∧
      (ApproveAndCreateCertificate exDB1 none none none 100 7 exAdmin).2.reqs =
        exDB1.reqs.map (fun x =>
          if x.id == exReqAlice.id then
            { exReqAlice with
                status := CertStatus.valid
                approvedBy := exAdmin.username
                approvedAt := some 100 }
          else x)) :=
  ⟨by decide, by decide,
    approve_pending_success exDB1 100 7 exAdmin exReqAlice (by decide) (by decide)⟩

/-- C2: approving a stored request whose status is not pending fails
with "request is not pending, current status: <status>" and leaves the
store unchanged (no certificate created, request unmodified), for any
fault schedule of the two writes. -/
theorem approve_non_pending_fails (db : DB) (cf uf : Option String)
    (now reqID : Nat) (admin : User) (req : CertificateRequest)
    (hfind : db.getCertificateRequestByID reqID = some req)
    (hnp : req.status ≠ CertStatus.pending) :
    ApproveAndCreateCertificate db none cf uf now reqID admin =
      (.error ("request is not pending, current status: " ++ req.status.str), db) := by
  have h1 : lookupReqByID db none reqID = .found req := by
    simp [lookupReqByID, hfind]
  have h2 : req.IsPending = false := by
    simp [CertificateRequest.IsPending]
    exact hnp
  simp [ApproveAndCreateCertificate, h1, h2]

/-- C2 witness: the spec §8 scenario, request id 8 with status rejected. -/
theorem approve_non_pending_fails_witness :
    exDB1.getCertificateRequestByID 8 = some exReqRejected ∧
    exReqRejected.status ≠ CertStatus.pending ∧
    ApproveAndCreateCertificate exDB1 none none none 100 8 exAdmin =
      (.error ("request is not pending, current status: " ++ exReqRejected.status.str),
        exDB1) :=
  ⟨by decide, by decide,
    approve_non_pending_fails exDB1 none none 100 8 exAdmin exReqRejected
      (by decide) (by decide)⟩

/-- Concrete tenant user "bob" (spec §8 scenario). -/
def exBob : User := { id := 5, username := "bob" }

/-- A revoked certificate of bob, stored first (lower primary key). -/
def exCertRevoked : Certificate :=
  { id := 1
    name := "bob-client-cert"
    type := "client"
    status := CertStatus.revoked
    owner := "bob"
    ownerID := 5
    content := ""
    issuedDate := 0
    expirationDate := 10 }

/-- A valid certificate of bob, stored second. -/
def exCertValid : Certificate :=
  { id := 2
    name := "bob-client-cert"
    type := "client"
    status := CertStatus.valid
    owner := "bob"
    ownerID := 5
    content := ""
    issuedDate := 0
    expirationDate := 10 }

/-- Store where bob owns a revoked certificate (found first by the
owner-id lookup) and also a valid one. -/
def exDB3 : DB := { certs := [exCertRevoked, exCertValid], reqs := [] }

/-- The request the tenant call creates on `exDB3` (fresh key 1). -/
def exReq3 : CertificateRequest :=
  { id := 1
    userName := "bob"
    userID := 5
    type := "client"
    status := CertStatus.pending
    reason := "again"
    approvedBy := ""
    approvedAt := none
    rejectedBy := ""
    rejectedAt := none
    rejectedReason := "" }

/-- C3 counterexample: bob owns a certificate with status valid
(`exCertValid`), yet `CreateTenantCertificateRequest` does not fail with
"certificate already exists for user" — the owner-id lookup returns
bob's first stored certificate, which is revoked, so the claimed
equivalence "fails iff a valid-or-expiring certificate owned by U
exists" is false at this store. -/
theorem tenant_request_blocking_cert_counterexample :
    ¬ (((CreateTenantCertificateRequest exDB3 none none none exBob "client" "again").1 =
          Except.error "certificate already exists for user") ↔
        (∃ c ∈ exDB3.certs, c.ownerID = exBob.id ∧
          (c.status = CertStatus.valid ∨ c.status = CertStatus.expiring))) := by
  intro hiff
  have hex : ∃ c ∈ exDB3.certs, c.ownerID = exBob.id ∧
      (c.status = CertStatus.valid ∨ c.status = CertStatus.expiring) :=
    ⟨exCertValid, by decide, by decide, Or.inl (by decide)⟩
  have hres := hiff.mpr hex
  rw [show (CreateTenantCertificateRequest exDB3 none none none exBob "client" "again").1 =
      Except.ok exReq3 from rfl] at hres
  exact Except.noConfusion hres

/-- C3 amended: with no storage fault, the tenant call fails with
"certificate already exists for user" exactly when the single-record
owner-id lookup returns a certificate whose status is valid or expiring
(so any other status of the looked-up certificate, e.g. revoked, does
not block; when the user owns at most one certificate this coincides
with the claim as stated). -/
theorem tenant_request_blocking_cert_lookup (db : DB) (user : User)
    (t reason : String) :
    ((CreateTenantCertificateRequest db none none none user t reason).1 =
      Except.error "certificate already exists for user") ↔
    (∃ c, db.getCertificateByOwnerID user.id = some c ∧
      (c.status = CertStatus.valid ∨ c.status = CertStatus.expiring)) := by
  cases h : db.getCertificateByOwnerID user.id with
  | none =>
    have hlk : lookupCertByOwner db none user.id = .notFound := by
      simp [lookupCertByOwner, h]
    constructor
    · intro hres
      exfalso
      cases h2 : db.getPendingCertificateRequestByUserID user.id with
      | none =>
        simp [CreateTenantCertificateRequest, hlk, lookupPendingReqByUser, h2] at hres
      | some r =>
        simp [CreateTenantCertificateRequest, hlk, lookupPendingReqByUser, h2] at hres
    · rintro ⟨c, hc, _⟩
      simp [h] at hc
  | some c =>
    have hlk : lookupCertByOwner db none user.id = .found c := by
      simp [lookupCertByOwner, h]
    by_cases hb : c.status = CertStatus.valid ∨ c.status = CertStatus.expiring
    · have hbb : (c.status == CertStatus.valid || c.status == CertStatus.expiring) = true := by
        rcases hb with hb | hb <;> simp [hb]
      constructor
      · intro _
        exact ⟨c, rfl, hb⟩
      · intro _
        simp [CreateTenantCertificateRequest, hlk, hbb]
    · have hbb : (c.status == CertStatus.valid || c.status == CertStatus.expiring) = false := by
        push_neg at hb
        simp [hb.1, hb.2]
      constructor
      · intro hres
        exfalso
        cases h2 : db.getPendingCertificateRequestByUserID user.id with
        | none =>
          simp [CreateTenantCertificateRequest, hlk, hbb,
            lookupPendingReqByUser, h2] at hres
        | some r =>
          simp [CreateTenantCertificateRequest, hlk, hbb,
            lookupPendingReqByUser, h2] at hres
      · rintro ⟨c2, hc2, hst⟩
        injection hc2 with hc2
        subst hc2
        exact absurd hst hb

/-- C4: for a user whose stored certificates never block (none owned by
the user is valid or expiring), the tenant call fails with "certificate
request is pending for user" leaving the store unchanged when a pending
request of the user exists, and otherwise succeeds, appending exactly
one new request carrying the user's name and id, the given type and
reason, and status pending. -/
theorem tenant_request_pending_check (db : DB) (user : User) (t reason : String)
    (hnoblock : ∀ c ∈ db.certs, c.ownerID = user.id →
      ¬(c.status = CertStatus.valid ∨ c.status = CertStatus.expiring)) :
    ((∃ r ∈ db.reqs, r.userID = user.id ∧ r.status = CertStatus.pending) →
      CreateTenantCertificateRequest db none none none user t reason =
        (.error "certificate request is pending for user", db)) ∧
    ((¬ ∃ r ∈ db.reqs, r.userID = user.id ∧ r.status = CertStatus.pending) →
      ∃ rq : CertificateRequest,
        CreateTenantCertificateRequest db none none none user t reason =
          (.ok rq, { db with reqs := db.reqs ++ [rq] }) ∧
        rq.userName = user.username ∧ rq.userID = user.id ∧
        rq.type = t ∧ rq.reason = reason ∧ rq.status = CertStatus.pending) := by
  have hbb : ∀ c, db.getCertificateByOwnerID user.id = some c →
      (c.status == CertStatus.valid || c.status == CertStatus.expiring) = false := by
    intro c hc
    simp only [DB.getCertificateByOwnerID] at hc
    have hmem := List.mem_of_find?_eq_some hc
    have hown := List.find?_some hc
    simp only [beq_iff_eq] at hown
    have hnb := hnoblock c hmem hown
    push_neg at hnb
    simp [hnb.1, hnb.2]
  constructor
  · rintro ⟨r, hr, hru, hrs⟩
    cases h2 : db.getPendingCertificateRequestByUserID user.id with
    | none =>
      exfalso
      simp only [DB.getPendingCertificateRequestByUserID, List.find?_eq_none] at h2
      exact h2 r hr (by simp [hru, hrs])
    | some r2 =>
      cases h : db.getCertificateByOwnerID user.id with
      | none =>
        simp [CreateTenantCertificateRequest, lookupCertByOwner, h,
          lookupPendingReqByUser, h2]
      | some c =>
        simp [CreateTenantCertificateRequest, lookupCertByOwner, h, hbb c h,
          lookupPendingReqByUser, h2]
  · intro hne
    have h2 : db.getPendingCertificateRequestByUserID user.id = none := by
      cases h2 : db.getPendingCertificateRequestByUserID user.id with
      | none => rfl
      | some r2 =>
        exfalso
        simp only [DB.getPendingCertificateRequestByUserID] at h2
        have hmem := List.mem_of_find?_eq_some h2
        have hp := List.find?_some h2
        simp only [Bool.and_eq_true, beq_iff_eq] at hp
        exact hne ⟨r2, hmem, hp.1, hp.2⟩
    refine ⟨{ id := freshReqId db
              userName := user.username
              userID := user.id
              type := t
              status := CertStatus.pending
              reason := reason
              approvedBy := ""
              approvedAt := none
              rejectedBy := ""
              rejectedAt := none
              rejectedReason := "" }, ?_, rfl, rfl, rfl, rfl, rfl⟩
    cases h : db.getCertificateByOwnerID user.id with
    | none =>
      simp [CreateTenantCertificateRequest, lookupCertByOwner, h,
        lookupPendingReqByUser, h2, DB.createCertificateRequest]
    | some c =>
      simp [CreateTenantCertificateRequest, lookupCertByOwner, h, hbb c h,
        lookupPendingReqByUser, h2, DB.createCertificateRequest]

/-- Store for the C4 witness: bob owns only a revoked certificate and
has no stored request. -/
def exDB4 : DB := { certs := [exCertRevoked], reqs := [] }

/-- C4 witness: on `exDB4` (no blocking certificate, no pending
request) the tenant call creates the new pending request. -/
theorem tenant_request_pending_check_witness :
    (∀ c ∈ exDB4.certs, c.ownerID = exBob.id →
      ¬(c.status = CertStatus.valid ∨ c.status = CertStatus.expiring)) ∧
    (((∃ r ∈ exDB4.reqs, r.userID = exBob.id ∧ r.status = CertStatus.pending) →
      CreateTenantCertificateRequest exDB4 none none none exBob "client" "again" =
        (.error "certificate request is pending for user", exDB4)) ∧
    ((¬ ∃ r ∈ exDB4.reqs, r.userID = exBob.id ∧ r.status = CertStatus.pending) →
      ∃ rq : CertificateRequest,
        CreateTenantCertificateRequest exDB4 none none none exBob "client" "again" =
          (.ok rq, { exDB4 with reqs := exDB4.reqs ++ [rq] }) ∧
        rq.userName = exBob.username ∧ rq.userID = exBob.id ∧
        rq.type = "client" ∧ rq.reason = "again" ∧
        rq.status = CertStatus.pending)) :=
  ⟨by decide,
    tenant_request_pending_check exDB4 exBob "client" "again" (by decide)⟩

/-- C5: rejecting a stored pending request succeeds with a single
request-save: the certificates are untouched (no certificate created)
and the stored request is rewritten to status rejected with the
rejecter's username, a rejection timestamp, and the given reason;
rejecting a stored non-pending request fails with "request is not
pending, current status: <status>" and leaves the store unchanged, for
any fault schedule of the write. -/
theorem reject_request_spec (db : DB) (now reqID : Nat) (admin : User)
    (reason : String) (req : CertificateRequest)
    (hfind : db.getCertificateRequestByID reqID = some req) :
    (req.status = CertStatus.pending →
      (RejectCertificateRequest db none none now reqID admin reason).1 = .ok () ∧
      (RejectCertificateRequest db none none now reqID admin reason).2.certs =
        db.certs ∧
      (RejectCertificateRequest db none none now reqID admin reason).2.reqs =
        db.reqs.map (fun x =>
          if x.id == req.id then
            { req with
                status := CertStatus.rejected
                rejectedBy := admin.username
                rejectedAt := some now
                rejectedReason := reason }
          else x)) ∧
    (req.status ≠ CertStatus.pending →
      ∀ uf, RejectCertificateRequest db none uf now reqID admin reason =
        (.error ("request is not pending, current status: " ++ req.status.str), db)) := by
  have h1 : lookupReqByID db none reqID = .found req := by
    simp [lookupReqByID, hfind]
  constructor
  · intro hpend
    have h2 : req.IsPending = true := by
      simp [CertificateRequest.IsPending, hpend]
    refine ⟨?_, ?_, ?_⟩ <;>
      simp [RejectCertificateRequest, h1, h2, DB.updateCertificateRequest]
  · intro hnp uf
    have h2 : req.IsPending = false := by
      simp [CertificateRequest.IsPending]
      exact hnp
    simp [RejectCertificateRequest, h1, h2]

/-- C5 witness: rejecting pending request 7 of `exDB1` at instant 100. -/
theorem reject_request_spec_witness :
    exDB1.getCertificateRequestByID 7 = some exReqAlice ∧
    ((exReqAlice.status = CertStatus.pending →
      (RejectCertificateRequest exDB1 none none 100 7 exAdmin "busy").1 = .ok () ∧
      (RejectCertificateRequest exDB1 none none 100 7 exAdmin "busy").2.certs =
        exDB1.certs ∧
      (RejectCertificateRequest exDB1 none none 100 7 exAdmin "busy").2.reqs =
        exDB1.reqs.map (fun x =>
          if x.id == exReqAlice.id then
            { exReqAlice with
                status := CertStatus.rejected
                rejectedBy := exAdmin.username
                rejectedAt := some 100
                rejectedReason := "busy" }
          else x)) ∧
    (exReqAlice.status ≠ CertStatus.pending →
      ∀ uf, RejectCertificateRequest exDB1 none uf 100 7 exAdmin "busy" =
        (.error ("request is not pending, current status: " ++ exReqAlice.status.str),
          exDB1))) :=
  ⟨by decide, reject_request_spec exDB1 100 7 exAdmin "busy" exReqAlice (by decide)⟩

/-- The certificate the approve path inserts for scenario request 7 of
`exDB1` at instant 100 (fresh key 1). -/
def exCert6 : Certificate :=
  { id := 1
    name := "alice-client-cert"
    type := "client"
    status := CertStatus.valid
    owner := "alice"
    ownerID := 3
    content := ""
    issuedDate := 100
    expirationDate := timeAddDate 100 1 0 0 }

/-- C6: an execution in which the certificate insert succeeds and the
request update fails: the approve call returns the update error, yet the
new certificate persists in the returned store while request 7 is still
stored with status pending — the two writes are not atomic. -/
theorem approve_two_writes_not_atomic :
    (ApproveAndCreateCertificate exDB1 none none (some "disk full") 100 7 exAdmin).1 =
      Except.error "failed to update request: disk full" ∧
    (ApproveAndCreateCertificate exDB1 none none (some "disk full") 100 7 exAdmin).2.certs =
      exDB1.certs ++ [exCert6] ∧
    (ApproveAndCreateCertificate exDB1 none none (some "disk full") 100 7
        exAdmin).2.getCertificateRequestByID 7 = some exReqAlice ∧
    exReqAlice.status = CertStatus.pending := by
  refine ⟨rfl, rfl, rfl, rfl⟩

/-- Store for the C7 witness: bob's valid certificate is the only one. -/
def exDB7 : DB := { certs := [exCertValid], reqs := [] }

/-- C7: whenever the tenant request-creation handler answers with an
error response, the HTTP code is 400 exactly when the service error
message is one of the two special-cased strings, and 500 exactly
otherwise. -/
theorem tenant_handler_error_status (db : DB) (f1 f2 f3 : Option String)
    (user : User) (t reason msg : String) (code : Nat)
    (h : (CreateTenantCertificateRequestHandler db f1 f2 f3 user t reason).1 =
      .errorResp msg code) :
    (code = 400 ↔ (msg = "certificate already exists for user" ∨
      msg = "certificate request is pending for user")) ∧
    (code = 500 ↔ ¬(msg = "certificate already exists for user" ∨
      msg = "certificate request is pending for user")) := by
  cases hsvc : (CreateTenantCertificateRequest db f1 f2 f3 user t reason).1 with
  | ok rq =>
    exfalso
    simp [CreateTenantCertificateRequestHandler, hsvc] at h
  | error e =>
    by_cases hmsg : e = "certificate already exists for user" ∨
        e = "certificate request is pending for user"
    · have hcond : (e == "certificate already exists for user" ||
          e == "certificate request is pending for user") = true := by
        rcases hmsg with hm | hm <;> simp [hm]
      have hrun : (CreateTenantCertificateRequestHandler db f1 f2 f3 user t
          reason).1 = .errorResp e 400 := by
        simp [CreateTenantCertificateRequestHandler, hsvc, hcond]
      rw [hrun] at h
      injection h with he hc
      subst he
      subst hc
      refine ⟨⟨fun _ => hmsg, fun _ => rfl⟩,
        ⟨fun hx => absurd hx (by decide), fun hx => absurd hmsg hx⟩⟩
    · have hcond : (e == "certificate already exists for user" ||
          e == "certificate request is pending for user") = false := by
        push_neg at hmsg
        simp [hmsg.1, hmsg.2]
      have hrun : (CreateTenantCertificateRequestHandler db f1 f2 f3 user t
          reason).1 = .errorResp e 500 := by
        simp [CreateTenantCertificateRequestHandler, hsvc, hcond]
      rw [hrun] at h
      injection h with he hc
      subst he
      subst hc
      refine ⟨⟨fun hx => absurd hx (by decide), fun hx => absurd hx hmsg⟩,
        ⟨fun _ => hmsg, fun _ => rfl⟩⟩

/-- C7 witness: on `exDB7` the service reports the duplicate-certificate
business error and the handler answers it with HTTP 400. -/
theorem tenant_handler_error_status_witness :
    (CreateTenantCertificateRequestHandler exDB7 none none none exBob "client"
        "again").1 = .errorResp "certificate already exists for user" 400 ∧
    ((400 = 400 ↔ ("certificate already exists for user" = "certificate already exists for user" ∨
      "certificate already exists for user" = "certificate request is pending for user")) ∧
    (400 = 500 ↔ ¬("certificate already exists for user" = "certificate already exists for user" ∨
      "certificate already exists for user" = "certificate request is pending for user"))) :=
  ⟨by decide,
    tenant_handler_error_status exDB7 none none none exBob "client" "again"
      "certificate already exists for user" 400 (by decide)⟩

/-- C8: the tenant certificate fetch returns the owner-id lookup result
unchanged — `ok none` (no certificate, no error) when the store has no
certificate for the owner, `ok (some c)` for a found certificate `c` —
and propagates any non-not-found storage error as an error. -/
theorem get_certificate_for_tenant_spec (db : DB) (ownerID : Nat) :
    GetCertificateForTenant db none ownerID =
      Except.ok (db.getCertificateByOwnerID ownerID) ∧
    ∀ e, GetCertificateForTenant db (some e) ownerID = Except.error e := by
  constructor
  · cases h : db.getCertificateByOwnerID ownerID with
    | none => simp [GetCertificateForTenant, lookupCertByOwner, h]
    | some c => simp [GetCertificateForTenant, lookupCertByOwner, h]
  · intro e
    rfl

/-- If the by-id search finds `c` and `c₁` carries the same id, then
after replacing every id-match by `c₁` the search finds `c₁`. -/
lemma find_id_update (i : Nat) (l : List Certificate) (c c₁ : Certificate)
    (hid : c₁.id = c.id)
    (h : l.find? (fun x => x.id == i) = some c) :
    (l.map (fun x => if x.id == c.id then c₁ else x)).find?
      (fun x => x.id == i) = some c₁ := by
  induction l with
  | nil => simp at h
  | cons a tl ih =>
    cases ha : (a.id == i) with
    | true =>
      rw [List.find?_cons_of_pos tl ha] at h
      injection h with h
      subst h
      simp only [List.map_cons]
      have hfa : (if a.id == a.id then c₁ else a) = c₁ := by simp
      rw [hfa]
      exact List.find?_cons_of_pos _ (by rw [hid]; exact ha)
    | false =>
      rw [List.find?_cons_of_neg tl (by simp [ha])] at h
      have hci : (c.id == i) = true := by
        have := List.find?_some h
        simpa using this
      have hac : (a.id == c.id) = false := by
        cases hx : (a.id == c.id) with
        | false => rfl
        | true =>
          exfalso
          have he : a.id = c.id := by simpa using hx
          have ht : (a.id == i) = true := by rw [he]; exact hci
          rw [ht] at ha
          exact Bool.noConfusion ha
      simp only [List.map_cons, hac, Bool.false_eq_true, if_false]
      rw [List.find?_cons_of_neg _ (by simp [ha])]
      exact ih h

/-- Replacing every id-match by `c₁` twice is the same as doing it once. -/
lemma update_update_self (l : List Certificate) (c₁ : Certificate) :
    ((l.map (fun x => if x.id == c₁.id then c₁ else x)).map
      (fun x => if x.id == c₁.id then c₁ else x)) =
    l.map (fun x => if x.id == c₁.id then c₁ else x) := by
  rw [List.map_map]
  apply List.map_congr_left
  intro a _
  by_cases hx : (a.id == c₁.id) = true
  · simp [Function.comp, hx]
  · simp [Function.comp, hx]

/-- C9: revoking a stored certificate succeeds with no status check —
the store keeps every field of the certificate and only its status
becomes revoked — and revoking again succeeds and leaves the store
exactly as after the first revocation (idempotence). -/
theorem revoke_certificate_spec (db : DB) (id : Nat) (cert : Certificate)
    (hfind : db.getCertificateByID id = some cert) :
    (RevokeCertificate db none none id).1 = .ok () ∧
    (RevokeCertificate db none none id).2 =
      db.updateCertificate { cert with status := CertStatus.revoked } ∧
    RevokeCertificate (RevokeCertificate db none none id).2 none none id =
      (.ok (), (RevokeCertificate db none none id).2) := by
  have hlk : lookupCertByID db none id = .found cert := by
    simp [lookupCertByID, hfind]
  have hstep : RevokeCertificate db none none id =
      (.ok (), db.updateCertificate { cert with status := CertStatus.revoked }) := by
    simp [RevokeCertificate, hlk]
  refine ⟨by rw [hstep], by rw [hstep], ?_⟩
  rw [hstep]
  have hfind2 : (db.updateCertificate
      { cert with status := CertStatus.revoked }).getCertificateByID id =
      some { cert with status := CertStatus.revoked } := by
    simp only [DB.updateCertificate, DB.getCertificateByID] at hfind ⊢
    exact find_id_update id db.certs cert _ rfl hfind
  have hlk2 : lookupCertByID
      (db.updateCertificate { cert with status := CertStatus.revoked }) none id =
      .found { cert with status := CertStatus.revoked } := by
    simp [lookupCertByID, hfind2]
  have hdd : (db.updateCertificate { cert with status := CertStatus.revoked
      }).updateCertificate { cert with status := CertStatus.revoked } =
      db.updateCertificate { cert with status := CertStatus.revoked } := by
    simp only [DB.updateCertificate]
    congr 1
    exact update_update_self db.certs { cert with status := CertStatus.revoked }
  calc RevokeCertificate (db.updateCertificate
        { cert with status := CertStatus.revoked }) none none id
      = (.ok (), (db.updateCertificate { cert with status := CertStatus.revoked
          }).updateCertificate { cert with status := CertStatus.revoked }) := by
        simp [RevokeCertificate, hlk2]
    _ = (.ok (), db.updateCertificate { cert with status := CertStatus.revoked }) := by
        rw [hdd]

/-- C9 witness: revoking bob's valid certificate (id 2) in `exDB3`,
twice. -/
theorem revoke_certificate_spec_witness :
    exDB3.getCertificateByID 2 = some exCertValid ∧
    ((RevokeCertificate exDB3 none none 2).1 = .ok () ∧
    (RevokeCertificate exDB3 none none 2).2 =
      exDB3.updateCertificate { exCertValid with status := CertStatus.revoked } ∧
    RevokeCertificate (RevokeCertificate exDB3 none none 2).2 none none 2 =
      (.ok (), (RevokeCertificate exDB3 none none 2).2)) :=
  ⟨by decide, revoke_certificate_spec exDB3 2 exCertValid (by decide)⟩

/-- Every element of a list of naturals is bounded by their foldr-max. -/
lemma mem_le_foldr_max (l : List Nat) (a : Nat) (h : a ∈ l) :
    a ≤ l.foldr max 0 := by
  induction l with
  | nil => simp at h
  | cons b tl ih =>
    rcases List.mem_cons.mp h with h | h
    · subst h
      exact le_max_left _ _
    · exact le_trans (ih h) (le_max_right _ _)

/-- A stored request's key is strictly below the next fresh key. -/
lemma req_id_lt_fresh (db : DB) (r : CertificateRequest) (hr : r ∈ db.reqs) :
    r.id < freshReqId db := by
  have : r.id ≤ (db.reqs.map (fun x => x.id)).foldr max 0 :=
    mem_le_foldr_max _ _ (List.mem_map.mpr ⟨r, hr, rfl⟩)
  exact Nat.lt_succ_of_le this

/-- Under the primary-key constraint, stored requests with equal keys
are equal. -/
lemma nodup_req_inj (db : DB) (hnd : ReqIdsNodup db)
    (a b : CertificateRequest) (ha : a ∈ db.reqs) (hb : b ∈ db.reqs)
    (hab : a.id = b.id) : a = b :=
  List.inj_on_of_nodup_map hnd ha hb hab

/-- Case analysis of one exposed operation's effect on the stored
requests: either they are untouched, or one stored pending request is
rewritten in place to a same-key record with status valid or rejected,
or a fresh-key request is appended. -/
lemma step_reqs_shape (db : DB) (op : Op) :
    (step db op).reqs = db.reqs ∨
    (∃ req ∈ db.reqs, req.status = CertStatus.pending ∧
      ∃ req₁ : CertificateRequest, req₁.id = req.id ∧
        (req₁.status = CertStatus.valid ∨ req₁.status = CertStatus.rejected) ∧
        (step db op).reqs =
          db.reqs.map (fun x => if x.id == req.id then req₁ else x)) ∨
    (∃ rq : CertificateRequest, rq.id = freshReqId db ∧
      (step db op).reqs = db.reqs ++ [rq]) := by
  cases op with
  | approve g c u now reqID admin =>
    cases g with
    | some e => left; rfl
    | none =>
      cases hfind : db.getCertificateRequestByID reqID with
      | none =>
        left
        simp [step, ApproveAndCreateCertificate, lookupReqByID, hfind]
      | some req =>
        cases hp : req.IsPending with
        | false =>
          left
          simp [step, ApproveAndCreateCertificate, lookupReqByID, hfind, hp]
        | true =>
          have hpend : req.status = CertStatus.pending := by
            simpa [CertificateRequest.IsPending] using hp
          cases c with
          | some e =>
            left
            simp [step, ApproveAndCreateCertificate, lookupReqByID, hfind, hp]
          | none =>
            cases u with
            | some e =>
              left
              simp [step, ApproveAndCreateCertificate, lookupReqByID, hfind, hp,
                DB.createCertificate]
            | none =>
              right; left
              refine ⟨req, List.mem_of_find?_eq_some hfind, hpend,
                { req with
                    status := CertStatus.valid
                    approvedBy := admin.username
                    approvedAt := some now },
                rfl, Or.inl rfl, ?_⟩
              simp [step, ApproveAndCreateCertificate, lookupReqByID, hfind, hp,
                DB.createCertificate, DB.updateCertificateRequest]
  | reject g u now reqID admin reason =>
    cases g with
    | some e => left; rfl
    | none =>
      cases hfind : db.getCertificateRequestByID reqID with
      | none =>
        left
        simp [step, RejectCertificateRequest, lookupReqByID, hfind]
      | some req =>
        cases hp : req.IsPending with
        | false =>
          left
          simp [step, RejectCertificateRequest, lookupReqByID, hfind, hp]
        | true =>
          have hpend : req.status = CertStatus.pending := by
            simpa [CertificateRequest.IsPending] using hp
          cases u with
          | some e =>
            left
            simp [step, RejectCertificateRequest, lookupReqByID, hfind, hp]
          | none =>
            right; left
            refine ⟨req, List.mem_of_find?_eq_some hfind, hpend,
              { req with
                  status := CertStatus.rejected
                  rejectedBy := admin.username
                  rejectedAt := some now
                  rejectedReason := reason },
              rfl, Or.inr rfl, ?_⟩
            simp [step, RejectCertificateRequest, lookupReqByID, hfind, hp,
              DB.updateCertificateRequest]
  | tenantCreate cf rf crf user t rsn =>
    cases cf with
    | some e => left; rfl
    | none =>
      cases hc : db.getCertificateByOwnerID user.id with
      | some c =>
        cases hb : (c.status == CertStatus.valid || c.status == CertStatus.expiring) with
        | true =>
          left
          simp [step, CreateTenantCertificateRequest, lookupCertByOwner, hc, hb]
        | false =>
          cases rf with
          | some e =>
            left
            simp [step, CreateTenantCertificateRequest, lookupCertByOwner, hc, hb,
              lookupPendingReqByUser]
          | none =>
            cases hp2 : db.getPendingCertificateRequestByUserID user.id with
            | some r2 =>
              left
              simp [step, CreateTenantCertificateRequest, lookupCertByOwner, hc, hb,
                lookupPendingReqByUser, hp2]
            | none =>
              cases crf with
              | some e =>
                left
                simp [step, CreateTenantCertificateRequest, lookupCertByOwner, hc,
                  hb, lookupPendingReqByUser, hp2]
              | none =>
                right; right
                refine ⟨{ id := freshReqId db
                          userName := user.username
                          userID := user.id
                          type := t
                          status := CertStatus.pending
                          reason := rsn
                          approvedBy := ""
                          approvedAt := none
                          rejectedBy := ""
                          rejectedAt := none
                          rejectedReason := "" }, rfl, ?_⟩
                simp [step, CreateTenantCertificateRequest, lookupCertByOwner, hc,
                  hb, lookupPendingReqByUser, hp2, DB.createCertificateRequest]
      | none =>
        cases rf with
        | some e =>
          left
          simp [step, CreateTenantCertificateRequest, lookupCertByOwner, hc,
            lookupPendingReqByUser]
        | none =>
          cases hp2 : db.getPendingCertificateRequestByUserID user.id with
          | some r2 =>
            left
            simp [step, CreateTenantCertificateRequest, lookupCertByOwner, hc,
              lookupPendingReqByUser, hp2]
          | none =>
            cases crf with
            | some e =>
              left
              simp [step, CreateTenantCertificateRequest, lookupCertByOwner, hc,
                lookupPendingReqByUser, hp2]
            | none =>
              right; right
              refine ⟨{ id := freshReqId db
                        userName := user.username
                        userID := user.id
                        type := t
                        status := CertStatus.pending
                        reason := rsn
                        approvedBy := ""
                        approvedAt := none
                        rejectedBy := ""
                        rejectedAt := none
                        rejectedReason := "" }, rfl, ?_⟩
              simp [step, CreateTenantCertificateRequest, lookupCertByOwner, hc,
                lookupPendingReqByUser, hp2, DB.createCertificateRequest]

/-- After one exposed operation, a stored request's record with the key
of an old record either is that old record, or witnesses the old record
pending and the new status valid or rejected. -/
lemma step_mem_or_transition (db : DB) (op : Op) (hnd : ReqIdsNodup db)
    (r : CertificateRequest) (hr : r ∈ db.reqs) (r' : CertificateRequest)
    (hr' : r' ∈ (step db op).reqs) (hid : r'.id = r.id) :
    r' = r ∨ (r.status = CertStatus.pending ∧
      (r'.status = CertStatus.valid ∨ r'.status = CertStatus.rejected)) := by
  rcases step_reqs_shape db op with hsh | ⟨req, hreq, hpend, req₁, hrid, hrst, hsh⟩ |
      ⟨rq, hrq, hsh⟩
  · rw [hsh] at hr'
    exact Or.inl (nodup_req_inj db hnd r' r hr' hr hid)
  · rw [hsh] at hr'
    obtain ⟨x, hx, hfx⟩ := List.mem_map.mp hr'
    by_cases hxi : (x.id == req.id) = true
    · rw [if_pos hxi] at hfx
      subst hfx
      have hri : req.id = r.id := by rw [← hrid]; exact hid
      have := nodup_req_inj db hnd req r hreq hr hri
      subst this
      exact Or.inr ⟨hpend, hrst⟩
    · rw [if_neg hxi] at hfx
      subst hfx
      exact Or.inl (nodup_req_inj db hnd x r hx hr hid)
  · rw [hsh] at hr'
    rcases List.mem_append.mp hr' with h | h
    · exact Or.inl (nodup_req_inj db hnd r' r h hr hid)
    · exfalso
      have : r' = rq := by simpa using h
      subst this
      have hlt := req_id_lt_fresh db r hr
      rw [← hid, hrq] at hlt
      exact lt_irrefl _ hlt

/-- One exposed operation keeps the stored request keys pairwise
distinct. -/
lemma step_nodup (db : DB) (op : Op) (hnd : ReqIdsNodup db) :
    ReqIdsNodup (step db op) := by
  rcases step_reqs_shape db op with hsh | ⟨req, hreq, hpend, req₁, hrid, hrst, hsh⟩ |
      ⟨rq, hrq, hsh⟩
  · unfold ReqIdsNodup
    rw [hsh]
    exact hnd
  · unfold ReqIdsNodup
    rw [hsh, List.map_map]
    have : ∀ a ∈ db.reqs,
        ((fun x => x.id) ∘ fun x => if x.id == req.id then req₁ else x) a =
          (fun x => x.id) a := by
      intro a _
      by_cases hxi : (a.id == req.id) = true
      · simp only [Function.comp, hxi, if_true, if_pos]
        rw [hrid]
        exact (beq_iff_eq.mp hxi).symm
      · simp [Function.comp, hxi]
    rw [List.map_congr_left this]
    exact hnd
  · unfold ReqIdsNodup
    rw [hsh, List.map_append]
    rw [List.nodup_append]
    refine ⟨hnd, by simp, ?_⟩
    rw [List.map_singleton, List.disjoint_singleton, hrq]
    intro hmem
    obtain ⟨x, hx, hxid⟩ := List.mem_map.mp hmem
    have := req_id_lt_fresh db x hx
    rw [hxid] at this
    exact lt_irrefl _ this

/-- A stored request with a terminal status survives one exposed
operation. -/
lemma terminal_mem_step (db : DB) (op : Op) (hnd : ReqIdsNodup db)
    (r : CertificateRequest) (hr : r ∈ db.reqs)
    (hterm : r.status = CertStatus.valid ∨ r.status = CertStatus.rejected) :
    r ∈ (step db op).reqs := by
  rcases step_reqs_shape db op with hsh | ⟨req, hreq, hpend, req₁, hrid, hrst, hsh⟩ |
      ⟨rq, hrq, hsh⟩
  · rw [hsh]
    exact hr
  · rw [hsh]
    have hri : (r.id == req.id) = false := by
      cases hx : (r.id == req.id) with
      | false => rfl
      | true =>
        exfalso
        have := nodup_req_inj db hnd r req hr hreq (beq_iff_eq.mp hx)
        subst this
        rw [hpend] at hterm
        rcases hterm with h | h <;> exact CertStatus.noConfusion h
    have himg : (fun x => if x.id == req.id then req₁ else x) r = r := by
      simp [hri]
    rw [← himg]
    exact List.mem_map_of_mem _ hr
  · rw [hsh]
    exact List.mem_append_left _ hr

/-- A terminal-status request survives any sequence of exposed
operations, with the key constraint maintained. -/
lemma runOps_mem_nodup (ops : List Op) (db : DB) (hnd : ReqIdsNodup db)
    (r : CertificateRequest) (hr : r ∈ db.reqs)
    (hterm : r.status = CertStatus.valid ∨ r.status = CertStatus.rejected) :
    r ∈ (runOps db ops).reqs ∧ ReqIdsNodup (runOps db ops) := by
  induction ops generalizing db with
  | nil => exact ⟨hr, hnd⟩
  | cons op ops ih =>
    have h1 := terminal_mem_step db op hnd r hr hterm
    have h2 := step_nodup db op hnd
    exact ih (step db op) h2 h1

/-- C10: under the store's primary-key constraint, once a stored
request's status is valid or rejected no sequence of exposed operations
(approve, reject, tenant request creation) ever stores a different
status under its key; and whenever a single exposed operation changes
the status stored under the key of request `r`, then `r` was pending
and the new status is valid or rejected. -/
theorem request_terminal_status_invariant (db : DB) (ops : List Op) (op : Op)
    (hnd : ReqIdsNodup db) (r : CertificateRequest) (hr : r ∈ db.reqs) :
    ((r.status = CertStatus.valid ∨ r.status = CertStatus.rejected) →
      ∀ r₂ ∈ (runOps db ops).reqs, r₂.id = r.id → r₂.status = r.status) ∧
    (∀ r₂ ∈ (step db op).reqs, r₂.id = r.id → r₂.status ≠ r.status →
      r.status = CertStatus.pending ∧
      (r₂.status = CertStatus.valid ∨ r₂.status = CertStatus.rejected)) := by
  constructor
  · intro hterm r₂ hr₂ hid
    obtain ⟨hmem, hnd₂⟩ := runOps_mem_nodup ops db hnd r hr hterm
    have := nodup_req_inj (runOps db ops) hnd₂ r₂ r hr₂ hmem hid
    rw [this]
  · intro r₂ hr₂ hid hne
    rcases step_mem_or_transition db op hnd r hr r₂ hr₂ hid with h | h
    · exact absurd (by rw [h]) hne
    · exact h

/-- C10 witness: in the scenario store `exDB1` (keys 7 and 8 distinct),
the rejected request 8 keeps its status across an approval of request 7,
and one reject step on request 7 only makes a pending-to-rejected
transition. -/
theorem request_terminal_status_invariant_witness :
    ReqIdsNodup exDB1 ∧ exReqRejected ∈ exDB1.reqs ∧
    (((exReqRejected.status = CertStatus.valid ∨
        exReqRejected.status = CertStatus.rejected) →
      ∀ r₂ ∈ (runOps exDB1 [Op.approve none none none 100 7 exAdmin]).reqs,
        r₂.id = exReqRejected.id → r₂.status = exReqRejected.status) ∧
    (∀ r₂ ∈ (step exDB1 (Op.reject none none 100 7 exAdmin "busy")).reqs,
      r₂.id = exReqRejected.id → r₂.status ≠ exReqRejected.status →
      exReqRejected.status = CertStatus.pending ∧
      (r₂.status = CertStatus.valid ∨ r₂.status = CertStatus.rejected))) :=
  ⟨by unfold ReqIdsNodup; decide, by decide,
    request_terminal_status_invariant exDB1
      [Op.approve none none none 100 7 exAdmin]
      (Op.reject none none 100 7 exAdmin "busy")
      (by unfold ReqIdsNodup; decide) exReqRejected (by decide)⟩

end OL
